import Mathlib

/-!
A shallow embedding of the folia-rust element store core: the element/attribute
type tables (`src/element.rs`, `src/attrib.rs`), the generic keyed store
(`src/store.rs`) and the element store with its attach/detach operations
(`src/elementstore.rs`).  Keys (`IntId`) are modelled as `Nat`; the Rust
`Vec<Option<Box<FoliaElement>>>` arena is a `List (Option FoliaElement)` and the
`HashMap<String,IntId>` identity index is an association list with first-match
lookup (`List.lookup`) and insertion of fresh ids by appending, matching the
store discipline in which `add` only ever inserts an id that is not yet present.
-/

namespace Folia

/-- Mirrors `pub enum ElementType` in `src/element.rs`. -/
inductive ElementType
  | ActorFeature
  | Alternative
  | AlternativeLayers
  | BegindatetimeFeature
  | Caption
  | Cell
  | Chunk
  | ChunkingLayer
  | Comment
  | Content
  | CoreferenceChain
  | CoreferenceLayer
  | CoreferenceLink
  | Correction
  | Current
  | Definition
  | DependenciesLayer
  | Dependency
  | DependencyDependent
  | Description
  | Division
  | DomainAnnotation
  | EnddatetimeFeature
  | EntitiesLayer
  | Entity
  | Entry
  | ErrorDetection
  | Event
  | Example
  | External
  | Feature
  | Figure
  | ForeignData
  | FunctionFeature
  | Gap
  | Head
  | HeadFeature
  | Headspan
  | Hiddenword
  | Hyphbreak
  | Label
  | LangAnnotation
  | LemmaAnnotation
  | LevelFeature
  | Linebreak
  | LinkReference
  | List
  | ListItem
  | Metric
  | ModalityFeature
  | Morpheme
  | MorphologyLayer
  | New
  | Note
  | Observation
  | ObservationLayer
  | Original
  | Paragraph
  | Part
  | PhonContent
  | Phoneme
  | PhonologyLayer
  | PolarityFeature
  | PosAnnotation
  | Predicate
  | Quote
  | Reference
  | Relation
  | Row
  | SemanticRole
  | SemanticRolesLayer
  | SenseAnnotation
  | Sentence
  | Sentiment
  | SentimentLayer
  | Source
  | SpanRelation
  | SpanRelationLayer
  | Speech
  | Statement
  | StatementLayer
  | StatementRelation
  | StrengthFeature
  | String
  | StyleFeature
  | SubjectivityAnnotation
  | Suggestion
  | SynsetFeature
  | SyntacticUnit
  | SyntaxLayer
  | Table
  | TableHead
  | Target
  | Term
  | Text
  | TextContent
  | TextMarkupCorrection
  | TextMarkupError
  | TextMarkupGap
  | TextMarkupReference
  | TextMarkupString
  | TextMarkupStyle
  | TimeFeature
  | TimeSegment
  | TimingLayer
  | Utterance
  | ValueFeature
  | Whitespace
  | Word
  | WordReference
deriving DecidableEq

/-- Mirrors `pub enum AnnotationType` in `src/element.rs`. -/
inductive AnnotationType
  | TEXT
  | TOKEN
  | DIVISION
  | PARAGRAPH
  | HEAD
  | LIST
  | FIGURE
  | WHITESPACE
  | LINEBREAK
  | SENTENCE
  | POS
  | LEMMA
  | DOMAIN
  | SENSE
  | SYNTAX
  | CHUNKING
  | ENTITY
  | CORRECTION
  | ERRORDETECTION
  | PHON
  | SUBJECTIVITY
  | MORPHOLOGICAL
  | EVENT
  | DEPENDENCY
  | TIMESEGMENT
  | GAP
  | QUOTE
  | NOTE
  | REFERENCE
  | RELATION
  | SPANRELATION
  | COREFERENCE
  | SEMROLE
  | METRIC
  | LANG
  | STRING
  | TABLE
  | STYLE
  | PART
  | UTTERANCE
  | ENTRY
  | TERM
  | DEFINITION
  | EXAMPLE
  | PHONOLOGICAL
  | PREDICATE
  | OBSERVATION
  | SENTIMENT
  | STATEMENT
  | ALTERNATIVE
  | RAWCONTENT
  | COMMENT
  | DESCRIPTION
  | HYPHENATION
  | HIDDENTOKEN
deriving DecidableEq

/-- Abbreviation for the builtin string type.  It is needed in signatures of
definitions living in the `ElementType` namespace, where the plain name
`String` resolves to the constructor `ElementType.String`. -/
abbrev Str := String

/-- Mirrors `pub enum FoliaError` (crate error type; only the variants used by the
embedded core are needed: parse, encode and internal errors, each carrying the
formatted message string). -/
inductive FoliaError
  | ParseError (msg : String)
  | EncodeError (msg : String)
  | InternalError (msg : String)
deriving DecidableEq

/-- Mirrors `ElementType::as_str` in `src/element.rs` (foliaspec:elementtype_string_map). -/
def ElementType.as_str : ElementType → Str
  | ElementType.ActorFeature => "actor"
  | ElementType.Alternative => "alt"
  | ElementType.AlternativeLayers => "altlayers"
  | ElementType.BegindatetimeFeature => "begindatetime"
  | ElementType.Caption => "caption"
  | ElementType.Cell => "cell"
  | ElementType.Chunk => "chunk"
  | ElementType.ChunkingLayer => "chunking"
  | ElementType.Comment => "comment"
  | ElementType.Content => "content"
  | ElementType.CoreferenceChain => "coreferencechain"
  | ElementType.CoreferenceLayer => "coreferences"
  | ElementType.CoreferenceLink => "coreferencelink"
  | ElementType.Correction => "correction"
  | ElementType.Current => "current"
  | ElementType.Definition => "def"
  | ElementType.DependenciesLayer => "dependencies"
  | ElementType.Dependency => "dependency"
  | ElementType.DependencyDependent => "dep"
  | ElementType.Description => "desc"
  | ElementType.Division => "div"
  | ElementType.DomainAnnotation => "domain"
  | ElementType.EnddatetimeFeature => "enddatetime"
  | ElementType.EntitiesLayer => "entities"
  | ElementType.Entity => "entity"
  | ElementType.Entry => "entry"
  | ElementType.ErrorDetection => "errordetection"
  | ElementType.Event => "event"
  | ElementType.Example => "ex"
  | ElementType.External => "external"
  | ElementType.Feature => "feat"
  | ElementType.Figure => "figure"
  | ElementType.ForeignData => "foreign-data"
  | ElementType.FunctionFeature => "function"
  | ElementType.Gap => "gap"
  | ElementType.Head => "head"
  | ElementType.HeadFeature => "headfeature"
  | ElementType.Headspan => "hd"
  | ElementType.Hiddenword => "hiddenw"
  | ElementType.Hyphbreak => "t-hbr"
  | ElementType.Label => "label"
  | ElementType.LangAnnotation => "lang"
  | ElementType.LemmaAnnotation => "lemma"
  | ElementType.LevelFeature => "level"
  | ElementType.Linebreak => "br"
  | ElementType.LinkReference => "xref"
  | ElementType.List => "list"
  | ElementType.ListItem => "item"
  | ElementType.Metric => "metric"
  | ElementType.ModalityFeature => "modality"
  | ElementType.Morpheme => "morpheme"
  | ElementType.MorphologyLayer => "morphology"
  | ElementType.New => "new"
  | ElementType.Note => "note"
  | ElementType.Observation => "observation"
  | ElementType.ObservationLayer => "observations"
  | ElementType.Original => "original"
  | ElementType.Paragraph => "p"
  | ElementType.Part => "part"
  | ElementType.PhonContent => "ph"
  | ElementType.Phoneme => "phoneme"
  | ElementType.PhonologyLayer => "phonology"
  | ElementType.PolarityFeature => "polarity"
  | ElementType.PosAnnotation => "pos"
  | ElementType.Predicate => "predicate"
  | ElementType.Quote => "quote"
  | ElementType.Reference => "ref"
  | ElementType.Relation => "relation"
  | ElementType.Row => "row"
  | ElementType.SemanticRole => "semrole"
  | ElementType.SemanticRolesLayer => "semroles"
  | ElementType.SenseAnnotation => "sense"
  | ElementType.Sentence => "s"
  | ElementType.Sentiment => "sentiment"
  | ElementType.SentimentLayer => "sentiments"
  | ElementType.Source => "source"
  | ElementType.SpanRelation => "spanrelation"
  | ElementType.SpanRelationLayer => "spanrelations"
  | ElementType.Speech => "speech"
  | ElementType.Statement => "statement"
  | ElementType.StatementLayer => "statements"
  | ElementType.StatementRelation => "rel"
  | ElementType.StrengthFeature => "strength"
  | ElementType.String => "str"
  | ElementType.StyleFeature => "style"
  | ElementType.SubjectivityAnnotation => "subjectivity"
  | ElementType.Suggestion => "suggestion"
  | ElementType.SynsetFeature => "synset"
  | ElementType.SyntacticUnit => "su"
  | ElementType.SyntaxLayer => "syntax"
  | ElementType.Table => "table"
  | ElementType.TableHead => "tablehead"
  | ElementType.Target => "target"
  | ElementType.Term => "term"
  | ElementType.Text => "text"
  | ElementType.TextContent => "t"
  | ElementType.TextMarkupCorrection => "t-correction"
  | ElementType.TextMarkupError => "t-error"
  | ElementType.TextMarkupGap => "t-gap"
  | ElementType.TextMarkupReference => "t-ref"
  | ElementType.TextMarkupString => "t-str"
  | ElementType.TextMarkupStyle => "t-style"
  | ElementType.TimeFeature => "time"
  | ElementType.TimeSegment => "timesegment"
  | ElementType.TimingLayer => "timing"
  | ElementType.Utterance => "utt"
  | ElementType.ValueFeature => "value"
  | ElementType.Whitespace => "whitespace"
  | ElementType.Word => "w"
  | ElementType.WordReference => "wref"

/-- Mirrors `impl std::str::FromStr for ElementType` in `src/element.rs`
(foliaspec:string_elementtype_map); the fallthrough arm builds the
`FoliaError::ParseError` with the unknown tag interpolated. -/
def ElementType.from_str (tag : Str) : Except FoliaError ElementType :=
  match tag with
  | "actor" => Except.ok ElementType.ActorFeature
  | "alt" => Except.ok ElementType.Alternative
  | "altlayers" => Except.ok ElementType.AlternativeLayers
  | "begindatetime" => Except.ok ElementType.BegindatetimeFeature
  | "caption" => Except.ok ElementType.Caption
  | "cell" => Except.ok ElementType.Cell
  | "chunk" => Except.ok ElementType.Chunk
  | "chunking" => Except.ok ElementType.ChunkingLayer
  | "comment" => Except.ok ElementType.Comment
  | "content" => Except.ok ElementType.Content
  | "coreferencechain" => Except.ok ElementType.CoreferenceChain
  | "coreferences" => Except.ok ElementType.CoreferenceLayer
  | "coreferencelink" => Except.ok ElementType.CoreferenceLink
  | "correction" => Except.ok ElementType.Correction
  | "current" => Except.ok ElementType.Current
  | "def" => Except.ok ElementType.Definition
  | "dependencies" => Except.ok ElementType.DependenciesLayer
  | "dependency" => Except.ok ElementType.Dependency
  | "dep" => Except.ok ElementType.DependencyDependent
  | "desc" => Except.ok ElementType.Description
  | "div" => Except.ok ElementType.Division
  | "domain" => Except.ok ElementType.DomainAnnotation
  | "enddatetime" => Except.ok ElementType.EnddatetimeFeature
  | "entities" => Except.ok ElementType.EntitiesLayer
  | "entity" => Except.ok ElementType.Entity
  | "entry" => Except.ok ElementType.Entry
  | "errordetection" => Except.ok ElementType.ErrorDetection
  | "event" => Except.ok ElementType.Event
  | "ex" => Except.ok ElementType.Example
  | "external" => Except.ok ElementType.External
  | "feat" => Except.ok ElementType.Feature
  | "figure" => Except.ok ElementType.Figure
  | "foreign-data" => Except.ok ElementType.ForeignData
  | "function" => Except.ok ElementType.FunctionFeature
  | "gap" => Except.ok ElementType.Gap
  | "head" => Except.ok ElementType.Head
  | "headfeature" => Except.ok ElementType.HeadFeature
  | "hd" => Except.ok ElementType.Headspan
  | "hiddenw" => Except.ok ElementType.Hiddenword
  | "t-hbr" => Except.ok ElementType.Hyphbreak
  | "label" => Except.ok ElementType.Label
  | "lang" => Except.ok ElementType.LangAnnotation
  | "lemma" => Except.ok ElementType.LemmaAnnotation
  | "level" => Except.ok ElementType.LevelFeature
  | "br" => Except.ok ElementType.Linebreak
  | "xref" => Except.ok ElementType.LinkReference
  | "list" => Except.ok ElementType.List
  | "item" => Except.ok ElementType.ListItem
  | "metric" => Except.ok ElementType.Metric
  | "modality" => Except.ok ElementType.ModalityFeature
  | "morpheme" => Except.ok ElementType.Morpheme
  | "morphology" => Except.ok ElementType.MorphologyLayer
  | "new" => Except.ok ElementType.New
  | "note" => Except.ok ElementType.Note
  | "observation" => Except.ok ElementType.Observation
  | "observations" => Except.ok ElementType.ObservationLayer
  | "original" => Except.ok ElementType.Original
  | "p" => Except.ok ElementType.Paragraph
  | "part" => Except.ok ElementType.Part
  | "ph" => Except.ok ElementType.PhonContent
  | "phoneme" => Except.ok ElementType.Phoneme
  | "phonology" => Except.ok ElementType.PhonologyLayer
  | "polarity" => Except.ok ElementType.PolarityFeature
  | "pos" => Except.ok ElementType.PosAnnotation
  | "predicate" => Except.ok ElementType.Predicate
  | "quote" => Except.ok ElementType.Quote
  | "ref" => Except.ok ElementType.Reference
  | "relation" => Except.ok ElementType.Relation
  | "row" => Except.ok ElementType.Row
  | "semrole" => Except.ok ElementType.SemanticRole
  | "semroles" => Except.ok ElementType.SemanticRolesLayer
  | "sense" => Except.ok ElementType.SenseAnnotation
  | "s" => Except.ok ElementType.Sentence
  | "sentiment" => Except.ok ElementType.Sentiment
  | "sentiments" => Except.ok ElementType.SentimentLayer
  | "source" => Except.ok ElementType.Source
  | "spanrelation" => Except.ok ElementType.SpanRelation
  | "spanrelations" => Except.ok ElementType.SpanRelationLayer
  | "speech" => Except.ok ElementType.Speech
  | "statement" => Except.ok ElementType.Statement
  | "statements" => Except.ok ElementType.StatementLayer
  | "rel" => Except.ok ElementType.StatementRelation
  | "strength" => Except.ok ElementType.StrengthFeature
  | "str" => Except.ok ElementType.String
  | "style" => Except.ok ElementType.StyleFeature
  | "subjectivity" => Except.ok ElementType.SubjectivityAnnotation
  | "suggestion" => Except.ok ElementType.Suggestion
  | "synset" => Except.ok ElementType.SynsetFeature
  | "su" => Except.ok ElementType.SyntacticUnit
  | "syntax" => Except.ok ElementType.SyntaxLayer
  | "table" => Except.ok ElementType.Table
  | "tablehead" => Except.ok ElementType.TableHead
  | "target" => Except.ok ElementType.Target
  | "term" => Except.ok ElementType.Term
  | "text" => Except.ok ElementType.Text
  | "t" => Except.ok ElementType.TextContent
  | "t-correction" => Except.ok ElementType.TextMarkupCorrection
  | "t-error" => Except.ok ElementType.TextMarkupError
  | "t-gap" => Except.ok ElementType.TextMarkupGap
  | "t-ref" => Except.ok ElementType.TextMarkupReference
  | "t-str" => Except.ok ElementType.TextMarkupString
  | "t-style" => Except.ok ElementType.TextMarkupStyle
  | "time" => Except.ok ElementType.TimeFeature
  | "timesegment" => Except.ok ElementType.TimeSegment
  | "timing" => Except.ok ElementType.TimingLayer
  | "utt" => Except.ok ElementType.Utterance
  | "value" => Except.ok ElementType.ValueFeature
  | "whitespace" => Except.ok ElementType.Whitespace
  | "w" => Except.ok ElementType.Word
  | "wref" => Except.ok ElementType.WordReference
  | _ => Except.error (FoliaError.ParseError ("Unknown tag has no associated element type: " ++ tag))

/-- Mirrors `impl Into<ElementType> for AnnotationType` in `src/element.rs`
(foliaspec:annotationtype_elementtype_map): the primary element type realizing
each annotation type.  The Rust match is exhaustive, hence the function is total. -/
def AnnotationType.elementtype : AnnotationType → ElementType
  | AnnotationType.ALTERNATIVE => ElementType.Alternative
  | AnnotationType.CHUNKING => ElementType.Chunk
  | AnnotationType.COMMENT => ElementType.Comment
  | AnnotationType.RAWCONTENT => ElementType.Content
  | AnnotationType.COREFERENCE => ElementType.CoreferenceChain
  | AnnotationType.CORRECTION => ElementType.Correction
  | AnnotationType.DEFINITION => ElementType.Definition
  | AnnotationType.DEPENDENCY => ElementType.Dependency
  | AnnotationType.DESCRIPTION => ElementType.Description
  | AnnotationType.DIVISION => ElementType.Division
  | AnnotationType.DOMAIN => ElementType.DomainAnnotation
  | AnnotationType.ENTITY => ElementType.Entity
  | AnnotationType.ENTRY => ElementType.Entry
  | AnnotationType.ERRORDETECTION => ElementType.ErrorDetection
  | AnnotationType.EVENT => ElementType.Event
  | AnnotationType.EXAMPLE => ElementType.Example
  | AnnotationType.FIGURE => ElementType.Figure
  | AnnotationType.GAP => ElementType.Gap
  | AnnotationType.HEAD => ElementType.Head
  | AnnotationType.HIDDENTOKEN => ElementType.Hiddenword
  | AnnotationType.HYPHENATION => ElementType.Hyphbreak
  | AnnotationType.LANG => ElementType.LangAnnotation
  | AnnotationType.LEMMA => ElementType.LemmaAnnotation
  | AnnotationType.LINEBREAK => ElementType.Linebreak
  | AnnotationType.LIST => ElementType.List
  | AnnotationType.METRIC => ElementType.Metric
  | AnnotationType.MORPHOLOGICAL => ElementType.Morpheme
  | AnnotationType.NOTE => ElementType.Note
  | AnnotationType.OBSERVATION => ElementType.Observation
  | AnnotationType.PARAGRAPH => ElementType.Paragraph
  | AnnotationType.PART => ElementType.Part
  | AnnotationType.PHON => ElementType.PhonContent
  | AnnotationType.PHONOLOGICAL => ElementType.Phoneme
  | AnnotationType.POS => ElementType.PosAnnotation
  | AnnotationType.PREDICATE => ElementType.Predicate
  | AnnotationType.QUOTE => ElementType.Quote
  | AnnotationType.REFERENCE => ElementType.Reference
  | AnnotationType.RELATION => ElementType.Relation
  | AnnotationType.SEMROLE => ElementType.SemanticRole
  | AnnotationType.SENSE => ElementType.SenseAnnotation
  | AnnotationType.SENTENCE => ElementType.Sentence
  | AnnotationType.SENTIMENT => ElementType.Sentiment
  | AnnotationType.SPANRELATION => ElementType.SpanRelation
  | AnnotationType.STATEMENT => ElementType.Statement
  | AnnotationType.STRING => ElementType.String
  | AnnotationType.SUBJECTIVITY => ElementType.SubjectivityAnnotation
  | AnnotationType.SYNTAX => ElementType.SyntacticUnit
  | AnnotationType.TABLE => ElementType.Table
  | AnnotationType.TERM => ElementType.Term
  | AnnotationType.TEXT => ElementType.TextContent
  | AnnotationType.STYLE => ElementType.TextMarkupStyle
  | AnnotationType.TIMESEGMENT => ElementType.TimeSegment
  | AnnotationType.UTTERANCE => ElementType.Utterance
  | AnnotationType.WHITESPACE => ElementType.Whitespace
  | AnnotationType.TOKEN => ElementType.Word


/-- Mirrors `pub enum AttribType` in `src/attrib.rs`. -/
inductive AttribType
  | ID | SET | CLASS | ANNOTATOR | ANNOTATORTYPE | CONFIDENCE | N | DATETIME
  | BEGINTIME | ENDTIME | SRC | SPEAKER | TEXTCLASS | METADATA | IDREF | SPACE
  | PROCESSOR | HREF | FORMAT | SUBSET
deriving DecidableEq

/-- Mirrors `pub enum Attribute` in `src/attrib.rs`; the `Confidence` payload is
an `f64`, modelled by `Float`. -/
inductive Attribute
  | Id (s : String)
  | Set (s : String)
  | Class (s : String)
  | Annotator (s : String)
  | AnnotatorType (s : String)
  | Confidence (f : Float)
  | N (s : String)
  | DateTime (s : String)
  | BeginTime (s : String)
  | EndTime (s : String)
  | Src (s : String)
  | Speaker (s : String)
  | Textclass (s : String)
  | Metadata (s : String)
  | Idref (s : String)
  | Space (b : Bool)
  | Processor (s : String)
  | Href (s : String)
  | Format (s : String)
  | Subset (s : String)

/-- Models `Cow<str>`: `Attribute::value` returns a borrowed string for the
string-carrying variants and an owned (freshly formatted) string for
`Confidence`; `FoliaElement::attrib_string` distinguishes the two. -/
inductive CowStr
  | Borrowed (s : String)
  | Owned (s : String)
deriving DecidableEq

/-- Mirrors `Attribute::value` in `src/attrib.rs`. -/
def Attribute.value : Attribute → CowStr
  | Attribute.Id s | Attribute.Set s | Attribute.Class s | Attribute.Annotator s
  | Attribute.AnnotatorType s | Attribute.N s | Attribute.DateTime s
  | Attribute.BeginTime s | Attribute.EndTime s | Attribute.Src s
  | Attribute.Speaker s | Attribute.Textclass s | Attribute.Metadata s
  | Attribute.Idref s | Attribute.Processor s | Attribute.Href s
  | Attribute.Format s | Attribute.Subset s => CowStr.Borrowed s
  | Attribute.Confidence f => CowStr.Owned (toString f)
  | Attribute.Space b => if b then CowStr.Borrowed "yes" else CowStr.Borrowed "no"

/-- Mirrors `Attribute::attribtype` in `src/attrib.rs`. -/
def Attribute.attribtype : Attribute → AttribType
  | Attribute.Id _ => AttribType.ID
  | Attribute.Set _ => AttribType.SET
  | Attribute.Class _ => AttribType.CLASS
  | Attribute.Annotator _ => AttribType.ANNOTATOR
  | Attribute.AnnotatorType _ => AttribType.ANNOTATORTYPE
  | Attribute.Confidence _ => AttribType.CONFIDENCE
  | Attribute.N _ => AttribType.N
  | Attribute.DateTime _ => AttribType.DATETIME
  | Attribute.BeginTime _ => AttribType.BEGINTIME
  | Attribute.EndTime _ => AttribType.ENDTIME
  | Attribute.Src _ => AttribType.SRC
  | Attribute.Speaker _ => AttribType.SPEAKER
  | Attribute.Textclass _ => AttribType.TEXTCLASS
  | Attribute.Metadata _ => AttribType.METADATA
  | Attribute.Idref _ => AttribType.IDREF
  | Attribute.Space _ => AttribType.SPACE
  | Attribute.Processor _ => AttribType.PROCESSOR
  | Attribute.Href _ => AttribType.HREF
  | Attribute.Format _ => AttribType.FORMAT
  | Attribute.Subset _ => AttribType.SUBSET

/-- Mirrors `Attribute::sametype` in `src/attrib.rs`. -/
def Attribute.sametype (a other : Attribute) : Bool :=
  a.attribtype == other.attribtype

/-- Mirrors `Attribute::attribtypeclass` in `src/attrib.rs`. -/
def Attribute.attribtypeclass (a : Attribute) : AttribType :=
  let attribtype := a.attribtype
  match attribtype with
  | AttribType.SET => AttribType.CLASS
  | AttribType.PROCESSOR => AttribType.ANNOTATOR
  | AttribType.ANNOTATORTYPE => AttribType.ANNOTATOR
  | _ => attribtype

/-- Mirrors `Attribute::parse` in `src/attrib.rs`.  The `quick_xml` reader is an
external collaborator: the attribute key bytes are passed as a string and the
result of `unescape_and_decode_value` is passed as `Except Unit String`, where
`Except.error ()` models a raw value on which unescaping/decoding fails.
`f64::from_str` is Rust standard library code, so it is passed in as the
function `fromF64` (`none` modelling a parse failure). -/
def Attribute.parse (fromF64 : String → Option Float) (key : String)
    (value : Except Unit String) : Except FoliaError Attribute :=
  match value with
  | Except.error _ =>
    Except.error (FoliaError.ParseError "Unable to parse attribute value (invalid utf-8?)")
  | Except.ok value =>
    match key with
    | "xml:id" => Except.ok (Attribute.Id value)
    | "set" => Except.ok (Attribute.Set value)
    | "class" => Except.ok (Attribute.Class value)
    | "processor" => Except.ok (Attribute.Processor value)
    | "annotator" => Except.ok (Attribute.Annotator value)
    | "annotatortype" => Except.ok (Attribute.AnnotatorType value)
    | "subset" => Except.ok (Attribute.Subset value)
    | "xlink:format" => Except.ok (Attribute.Format value)
    | "xlink:href" => Except.ok (Attribute.Href value)
    | "speaker" => Except.ok (Attribute.Speaker value)
    | "src" => Except.ok (Attribute.Src value)
    | "n" => Except.ok (Attribute.N value)
    | "datetime" => Except.ok (Attribute.DateTime value)
    | "begintime" => Except.ok (Attribute.BeginTime value)
    | "endtime" => Except.ok (Attribute.EndTime value)
    | "textclass" => Except.ok (Attribute.Textclass value)
    | "metadata" => Except.ok (Attribute.Metadata value)
    | "idref" => Except.ok (Attribute.Idref value)
    | "confidence" =>
      match fromF64 value with
      | some f => Except.ok (Attribute.Confidence f)
      | none =>
        Except.error (FoliaError.ParseError ("Invalid confidence value: \x27" ++ value ++ "\x27"))
    | "space" =>
      match value with
      | "yes" | "true" => Except.ok (Attribute.Space true)
      | "no" | "false" => Except.ok (Attribute.Space false)
      | _ =>
        Except.error (FoliaError.ParseError ("Invalid space value: \x27" ++ value ++ "\x27"))
    | _ =>
      Except.error (FoliaError.ParseError ("Unknown attribute: \x27" ++ key ++ "\x27"))

/-- Mirrors `pub enum DataType` in `src/element.rs`; `Element` carries the
`IntId` key of the referenced child, modelled as `Nat`. -/
inductive DataType
  | Text (s : String)
  | Element (k : Nat)
  | Comment (s : String)
deriving DecidableEq

/-- Mirrors `pub struct FoliaElement` in `src/element.rs`: the node kind, the
attribute list, the ordered child content and the optional parent key. -/
structure FoliaElement where
  elementtype : ElementType
  attribs : List Attribute
  data : List DataType
  parent : Option Nat

/-- Mirrors `FoliaElement::attrib`: first attribute of the given type. -/
def FoliaElement.attrib (e : FoliaElement) (atype : AttribType) : Option Attribute :=
  e.attribs.find? (fun a => a.attribtype == atype)

/-- Mirrors `FoliaElement::attrib_string`: the value of the attribute of the
given type, provided it is a borrowed string. -/
def FoliaElement.attrib_string (e : FoliaElement) (atype : AttribType) : Option String :=
  match e.attrib atype with
  | some attrib =>
    match attrib.value with
    | CowStr.Borrowed s => some s
    | CowStr.Owned _ => none
  | none => none

/-- Mirrors `FoliaElement::has_attrib`. -/
def FoliaElement.has_attrib (e : FoliaElement) (atype : AttribType) : Bool :=
  (e.attribs.find? (fun a => a.attribtype == atype)).isSome

/-- Mirrors `FoliaElement::del_attrib`: deletes (and returns) the first
attribute of the given type. -/
def FoliaElement.del_attrib (e : FoliaElement) (atype : AttribType) :
    Option Attribute × FoliaElement :=
  match e.attribs.findIdx? (fun a => a.attribtype == atype) with
  | some position => (e.attribs.get? position, { e with attribs := e.attribs.eraseIdx position })
  | none => (none, e)

/-- Mirrors `FoliaElement::set_attrib`: first deletes any attribute of the same
type, then pushes the new attribute. -/
def FoliaElement.set_attrib (e : FoliaElement) (attrib : Attribute) : FoliaElement :=
  let e := (e.del_attrib attrib.attribtype).2
  { e with attribs := e.attribs ++ [attrib] }

/-- Mirrors `FoliaElement::with_attrib` (builder form of `set_attrib`). -/
def FoliaElement.with_attrib (e : FoliaElement) (attrib : Attribute) : FoliaElement :=
  e.set_attrib attrib

/-- Mirrors `FoliaElement::set_attribs`: replaces the attribute list wholesale. -/
def FoliaElement.set_attribs (e : FoliaElement) (attribs : List Attribute) : FoliaElement :=
  { e with attribs := attribs }

/-- Mirrors `FoliaElement::with_attribs` (builder form of `set_attribs`). -/
def FoliaElement.with_attribs (e : FoliaElement) (attribs : List Attribute) : FoliaElement :=
  e.set_attribs attribs

/-- Mirrors `FoliaElement::id`. -/
def FoliaElement.id (e : FoliaElement) : Option String :=
  e.attrib_string AttribType.ID

/-- Mirrors `FoliaElement::push`. -/
def FoliaElement.push (e : FoliaElement) (datatype : DataType) : FoliaElement :=
  { e with data := e.data ++ [datatype] }

/-- Mirrors `FoliaElement::get_parent`. -/
def FoliaElement.get_parent (e : FoliaElement) : Option Nat :=
  e.parent

/-- Mirrors `FoliaElement::set_parent`. -/
def FoliaElement.set_parent (e : FoliaElement) (parent : Option Nat) : FoliaElement :=
  { e with parent := parent }

/-- Mirrors `FoliaElement::get` (low-level content access). -/
def FoliaElement.get (e : FoliaElement) (index : Nat) : Option DataType :=
  e.data.get? index

/-- Mirrors `FoliaElement::len`. -/
def FoliaElement.len (e : FoliaElement) : Nat :=
  e.data.length

/-- Mirrors `FoliaElement::index`: position of the first content entry equal to
`refchild`. -/
def FoliaElement.index (e : FoliaElement) (refchild : DataType) : Option Nat :=
  e.data.findIdx? (fun child => child == refchild)

/-- Mirrors `FoliaElement::remove`: removes (and returns) the content entry at
the given index, or returns `none` leaving the node unchanged when the index is
out of range. -/
def FoliaElement.remove (e : FoliaElement) (index : Nat) : Option DataType × FoliaElement :=
  if e.data.length ≤ index then (none, e)
  else (e.data.get? index, { e with data := e.data.eraseIdx index })

/-- Mirrors `FoliaElement::new`: an empty element of the given kind. -/
def FoliaElement.new (elementtype : ElementType) : FoliaElement :=
  { elementtype := elementtype, attribs := [], data := [], parent := none }


/-- Modelled from the spec: the `Storable` implementation for `FoliaElement` is
not among the provided sources (only the trait with its defaults is, in
`src/store.rs`).  Per the spec (section 4.4), items are deduplicated by the
string identity they may carry, which for nodes is the `xml:id` attribute
exposed by `FoliaElement::id`. -/
def FoliaElement.maybe_id (e : FoliaElement) : Option String :=
  e.id

/-- Modelled from the spec: the encodable readiness flag of the `Storable`
trait, "a readiness flag an item type may always report true for" (section
4.4); the default implementation in `src/store.rs` returns `true`. -/
def FoliaElement.is_encoded (_e : FoliaElement) : Bool :=
  true

/-- Mirrors `pub struct ElementStore` in `src/elementstore.rs`: the element
arena (`Vec<Option<Box<FoliaElement>>>`) and the identity index
(`HashMap<String,IntId>`).  `IntId` keys are `Nat` slot positions; the hash map
is an association list looked up by first match, into which `Store::add`, the
only inserting operation, only ever inserts ids that are not yet present. -/
structure ElementStore where
  elements : List (Option FoliaElement)
  index : List (String × Nat)

/-- The `Default` instance of `ElementStore`. -/
def ElementStore.empty : ElementStore :=
  { elements := [], index := [] }

/-- Mirrors `Store::len` in `src/store.rs`. -/
def ElementStore.len (s : ElementStore) : Nat :=
  s.elements.length

/-- Mirrors `Store::is_empty` in `src/store.rs`. -/
def ElementStore.is_empty (s : ElementStore) : Bool :=
  s.elements.isEmpty

/-- Mirrors `Store::get` in `src/store.rs`: bounds-checked slot lookup
(`items().get(key)`), then flattening of the slot option (`item.as_ref()`). -/
def ElementStore.get (s : ElementStore) (key : Nat) : Option FoliaElement :=
  match s.elements.get? key with
  | some item => item
  | none => none

/-- Mirrors `Store::get_mut` in `src/store.rs`; in the functional model it
returns the same slot content as `get`. -/
def ElementStore.get_mut (s : ElementStore) (key : Nat) : Option FoliaElement :=
  match s.elements.get? key with
  | some item => item
  | none => none

/-- Mirrors `Store::id_to_key` in `src/store.rs`. -/
def ElementStore.id_to_key (s : ElementStore) (id : String) : Option Nat :=
  s.index.lookup id

/-- Mirrors `Store::get_key` in `src/store.rs`: identity-based key lookup, used
by `add` for deduplication. -/
def ElementStore.get_key (s : ElementStore) (item : FoliaElement) : Option Nat :=
  match item.maybe_id with
  | some id => s.index.lookup id
  | none => none

/-- Mirrors `Store::get_by_id` in `src/store.rs`.  The Rust code resolves the
id and maps the key through `get`, then unwraps the result: the outer `Option`
records whether the id resolved, the inner one is the slot content whose
presence the final `unwrap` asserts — a `some none` result models the panic. -/
def ElementStore.get_by_id (s : ElementStore) (id : String) : Option (Option FoliaElement) :=
  (s.id_to_key id).map (fun key => s.get key)

/-- Mirrors `Store::get_mut_by_id` in `src/store.rs` (same shape as
`get_by_id`). -/
def ElementStore.get_mut_by_id (s : ElementStore) (id : String) : Option (Option FoliaElement) :=
  (s.id_to_key id).map (fun key => s.get_mut key)

/-- The successful path of `Store::add` in `src/store.rs`: dedup through
`get_key`, otherwise push the boxed item at slot position `len` and register
its id in the index.  `set_key` is the no-op default of the `Storable` trait. -/
def ElementStore.add_core (s : ElementStore) (item : FoliaElement) : Nat × ElementStore :=
  match s.get_key item with
  | some key => (key, s)
  | none =>
    let id := item.maybe_id
    let key := s.elements.length
    ( key,
      { elements := s.elements ++ [some item],
        index := match id with
                 | some id => s.index ++ [(id, key)]
                 | none => s.index } )

/-- Mirrors `Store::add` in `src/store.rs`.  The not-encoded branch returns the
`EncodeError`; with `Nat` keys the `Key::try_from(len)` conversion of the Rust
code cannot fail, so the `InternalError` overflow branch is unreachable and the
remainder of the function is `add_core`. -/
def ElementStore.add (s : ElementStore) (item : FoliaElement) :
    Except FoliaError (Nat × ElementStore) :=
  if item.is_encoded = false then
    Except.error (FoliaError.EncodeError "Item is not encoded yet")
  else
    Except.ok (s.add_core item)

/-- Functional update of one arena slot: the effect of mutating the element
obtained through `Store::get_mut`. -/
def ElementStore.setSlot (s : ElementStore) (key : Nat) (e : FoliaElement) : ElementStore :=
  { s with elements := s.elements.set key (some e) }

/-- The common final block of `ElementStore::attach` and `ElementStore::detach`
in `src/elementstore.rs`: if the old parent resolves and its content lists
`Element(child_intid)`, remove that entry (`index` followed by `remove`). -/
def ElementStore.removeFromParent (s : ElementStore) (oldparent_intid child_intid : Nat) :
    ElementStore :=
  match s.get_mut oldparent_intid with
  | none => s
  | some oldparent =>
    match oldparent.index (DataType.Element child_intid) with
    | none => s
    | some i => s.setSlot oldparent_intid (oldparent.remove i).2

/-- Mirrors `ElementStore::attach` in `src/elementstore.rs`: check the parent
exists, record and replace the parent of the child, push an `Element` entry
onto the new parent, then detach the child from its old parent if it had one.
Returns the updated store with the boolean result. -/
def ElementStore.attach (s : ElementStore) (parent_intid child_intid : Nat) :
    ElementStore × Bool :=
  match s.get parent_intid with
  | none => (s, false)
  | some _ =>
    match s.get_mut child_intid with
    | none => (s, false)
    | some child =>
      let oldparent_intid := child.get_parent
      let s := s.setSlot child_intid (child.set_parent (some parent_intid))
      let s := match s.get_mut parent_intid with
               | some parent => s.setSlot parent_intid (parent.push (DataType.Element child_intid))
               | none => s
      let s := match oldparent_intid with
               | some oldparent_intid => s.removeFromParent oldparent_intid child_intid
               | none => s
      (s, true)

/-- Mirrors `ElementStore::detach` in `src/elementstore.rs`: clear the parent
field of the child and remove its entry from the old parent content, if any. -/
def ElementStore.detach (s : ElementStore) (child_intid : Nat) : ElementStore × Bool :=
  match s.get_mut child_intid with
  | none => (s, false)
  | some child =>
    let oldparent_intid := child.get_parent
    let s := s.setSlot child_intid (child.set_parent none)
    let s := match oldparent_intid with
             | some oldparent_intid => s.removeFromParent oldparent_intid child_intid
             | none => s
    (s, true)

/-- Mirrors `ElementStore::add_to` in `src/elementstore.rs`: add the child,
attach it to the parent discarding the boolean result, return the child key
(`add` is used infallibly there, which is `add_core` here). -/
def ElementStore.add_to (s : ElementStore) (parent_intid : Nat) (child : FoliaElement) :
    Nat × ElementStore :=
  let r := s.add_core child
  let child_intid := r.1
  let s := (r.2.attach parent_intid child_intid).1
  (child_intid, s)

/-- Number of `Element c` references in the content of the node in slot `r`
(zero for an out-of-range or cleared slot). -/
def ElementStore.refCount (s : ElementStore) (r c : Nat) : Nat :=
  match s.get r with
  | some e => e.data.count (DataType.Element c)
  | none => 0


/-- The store states reachable through the operations of the store itself:
the default (empty) store, the successful path of `Store::add` (`add_core`;
the failing `add` leaves the store untouched), `ElementStore::attach` and
`ElementStore::detach` (with any arguments; the getters do not mutate). -/
inductive Reachable : ElementStore → Prop
  | empty : Reachable ElementStore.empty
  | add (s : ElementStore) (item : FoliaElement) (h : Reachable s) :
      Reachable (s.add_core item).2
  | attach (s : ElementStore) (p c : ℕ) (h : Reachable s) :
      Reachable (s.attach p c).1
  | detach (s : ElementStore) (c : ℕ) (h : Reachable s) :
      Reachable (s.detach c).1

/-- The attribute names recognized by `Attribute::parse` (the wire attribute
vocabulary of the spec, section 6). -/
def knownAttributeNames : List String :=
  ["xml:id", "set", "class", "processor", "annotator", "annotatortype", "subset",
   "xlink:format", "xlink:href", "speaker", "src", "n", "datetime", "begintime",
   "endtime", "textclass", "metadata", "idref", "confidence", "space"]

/-- A small concrete store used by witnesses: slots 0 and 1 hold empty
sentence nodes, slot 2 an unattached word node; the index is empty. -/
def sampleStore : ElementStore :=
  { elements := [some (FoliaElement.new ElementType.Sentence),
                 some (FoliaElement.new ElementType.Sentence),
                 some (FoliaElement.new ElementType.Word)],
    index := [] }

/-- A concrete store in which the word node in slot 2 is attached to the
sentence node in slot 0 (slot 1 holds a second, empty sentence). -/
def sampleStoreAttached : ElementStore :=
  { elements := [some { elementtype := ElementType.Sentence, attribs := [],
                        data := [DataType.Element 2], parent := none },
                 some (FoliaElement.new ElementType.Sentence),
                 some { elementtype := ElementType.Word, attribs := [],
                        data := [], parent := some 0 }],
    index := [] }

/-- A word node carrying the string identity "x". -/
def sampleWordX : FoliaElement :=
  (FoliaElement.new ElementType.Word).with_attrib (Attribute.Id "x")

/-- A second, distinct word node carrying the same string identity "x". -/
def sampleWordY : FoliaElement :=
  ((FoliaElement.new ElementType.Word).with_attrib (Attribute.Id "x")).with_attrib
    (Attribute.Class "WORD")

/-- The store obtained by adding `sampleWordX` to the empty store. -/
def sampleStoreX : ElementStore :=
  { elements := [some sampleWordX], index := [("x", 0)] }

/-! ### List-level helper lemmas -/

/-- Removing at the index found by `findIdx?` is `eraseP`. -/
theorem eraseIdx_findIdx?_eq_eraseP {α : Type} (p : α → Bool) (l : List α) :
    (match l.findIdx? p with | some i => l.eraseIdx i | none => l) = l.eraseP p := by
  induction l with
  | nil => rfl
  | cons a as ih =>
    simp only [List.findIdx?_cons, Nat.zero_add, List.findIdx?_succ, List.eraseP_cons]
    by_cases h : p a
    · simp [h]
    · simp only [h, Bool.false_eq_true, if_false, cond_false]
      cases hfi : as.findIdx? p with
      | none => simpa [hfi] using ih
      | some i => simpa [hfi] using ih

/-- `findIdx?` with success returns an in-range index. -/
theorem findIdx?_lt_length {α : Type} {p : α → Bool} {l : List α} {i : ℕ}
    (h : l.findIdx? p = some i) : i < l.length := by
  induction l generalizing i with
  | nil => simp [List.findIdx?_nil] at h
  | cons a as ih =>
    simp only [List.findIdx?_cons, Nat.zero_add, List.findIdx?_succ] at h
    by_cases hp : p a
    · rw [if_pos hp] at h
      cases h
      simp only [List.length_cons]
      omega
    · rw [if_neg hp] at h
      cases hfi : List.findIdx? p as with
      | none => rw [hfi] at h; simp at h
      | some j =>
        rw [hfi] at h
        simp at h
        have := ih hfi
        simp only [List.length_cons]
        omega

/-- Erasing the first occurrence of `x` is `eraseP (· == x)`. -/
theorem erase_eq_eraseP_beq {α : Type} [DecidableEq α] (x : α) (l : List α) :
    l.erase x = l.eraseP (fun y => y == x) := by
  induction l with
  | nil => rfl
  | cons a as ih =>
    by_cases h : a = x
    · subst h
      simp [List.erase_cons, List.eraseP_cons]
    · have hb : (a == x) = false := beq_eq_false_iff_ne.mpr h
      rw [List.erase_cons, List.eraseP_cons, hb]
      simp [ih]

/-- `countP` after `eraseP` on the same predicate: one less (truncated). -/
theorem countP_eraseP_self {α : Type} (p : α → Bool) (l : List α) :
    (l.eraseP p).countP p = l.countP p - 1 := by
  induction l with
  | nil => rfl
  | cons a as ih =>
    rw [List.eraseP_cons]
    by_cases h : p a
    · simp [h, List.countP_cons]
    · simp [h, List.countP_cons, ih]

/-- Association-list lookup distributes over append. -/
theorem lookup_append {α β : Type} [BEq α] (a : α) (l1 l2 : List (α × β)) :
    List.lookup a (l1 ++ l2) = (List.lookup a l1).or (List.lookup a l2) := by
  induction l1 with
  | nil => simp [List.lookup_nil]
  | cons kv l1 ih =>
    obtain ⟨k, v⟩ := kv
    rw [List.cons_append, List.lookup_cons, List.lookup_cons]
    cases a == k <;> simp [ih]

/-- A list element equal to its own `set`. -/
theorem set_of_get?_eq {α : Type} {l : List α} {k : ℕ} {a : α}
    (h : l.get? k = some a) : l.set k a = l := by
  induction l generalizing k with
  | nil => simp at h
  | cons b bs ih =>
    cases k with
    | zero => simp_all
    | succ k => simp_all


/-! ### Store access lemmas -/

theorem ElementStore.get_mut_eq_get (s : ElementStore) (key : ℕ) :
    s.get_mut key = s.get key := rfl

theorem ElementStore.get_eq_some_iff {s : ElementStore} {key : ℕ} {e : FoliaElement} :
    s.get key = some e ↔ s.elements.get? key = some (some e) := by
  unfold ElementStore.get
  cases hk : s.elements.get? key with
  | none => simp
  | some item => simp

theorem ElementStore.get_lt_length {s : ElementStore} {key : ℕ} {e : FoliaElement}
    (h : s.get key = some e) : key < s.elements.length := by
  have h2 := ElementStore.get_eq_some_iff.mp h
  exact (List.get?_eq_some.mp h2).1

theorem ElementStore.get_setSlot {s : ElementStore} {k : ℕ} {e0 : FoliaElement}
    (hk : s.get k = some e0) (e : FoliaElement) (j : ℕ) :
    (s.setSlot k e).get j = if k = j then some e else s.get j := by
  have hlt : k < s.elements.length := ElementStore.get_lt_length hk
  unfold ElementStore.setSlot ElementStore.get
  simp only [List.get?_eq_getElem?, List.getElem?_set]
  by_cases h : k = j
  · subst h
    simp [hlt]
  · simp [h]

theorem ElementStore.setSlot_self {s : ElementStore} {k : ℕ} {e : FoliaElement}
    (h : s.get k = some e) : s.setSlot k e = s := by
  have h2 := ElementStore.get_eq_some_iff.mp h
  unfold ElementStore.setSlot
  cases s with
  | mk elements index =>
    simp only [ElementStore.mk.injEq, and_true]
    exact set_of_get?_eq h2

theorem ElementStore.get_setSlot_isSome {s : ElementStore} {k : ℕ} {e0 : FoliaElement}
    (hk : s.get k = some e0) (e : FoliaElement) (j : ℕ) :
    ((s.setSlot k e).get j).isSome = (s.get j).isSome := by
  rw [ElementStore.get_setSlot hk]
  by_cases h : k = j
  · subst h
    rw [if_pos rfl, hk]
    rfl
  · rw [if_neg h]

/-! ### Reference-count lemmas -/

theorem ElementStore.refCount_of_get_none {s : ElementStore} {r : ℕ} (c : ℕ)
    (h : s.get r = none) : s.refCount r c = 0 := by
  unfold ElementStore.refCount
  rw [h]

theorem ElementStore.refCount_of_get {s : ElementStore} {r : ℕ} {e : FoliaElement} (c : ℕ)
    (h : s.get r = some e) : s.refCount r c = e.data.count (DataType.Element c) := by
  unfold ElementStore.refCount
  rw [h]

theorem ElementStore.refCount_congr {s1 s2 : ElementStore} {r : ℕ} (c : ℕ)
    (h : s1.get r = s2.get r) : s1.refCount r c = s2.refCount r c := by
  unfold ElementStore.refCount
  rw [h]

theorem ElementStore.refCount_setSlot_congr {s : ElementStore} {k : ℕ}
    {e0 e : FoliaElement} (hk : s.get k = some e0) (hdata : e.data = e0.data) (r c : ℕ) :
    (s.setSlot k e).refCount r c = s.refCount r c := by
  by_cases h : k = r
  · subst h
    have h1 : (s.setSlot k e).get k = some e := by
      rw [ElementStore.get_setSlot hk, if_pos rfl]
    rw [ElementStore.refCount_of_get c h1, ElementStore.refCount_of_get c hk, hdata]
  · exact ElementStore.refCount_congr c (by rw [ElementStore.get_setSlot hk, if_neg h])

theorem ElementStore.refCount_setSlot_push {s : ElementStore} {k : ℕ} {e0 : FoliaElement}
    (hk : s.get k = some e0) (c r : ℕ) :
    (s.setSlot k (e0.push (DataType.Element c))).refCount r c
      = s.refCount r c + (if k = r then 1 else 0) := by
  by_cases h : k = r
  · subst h
    have h1 : (s.setSlot k (e0.push (DataType.Element c))).get k
        = some (e0.push (DataType.Element c)) := by
      rw [ElementStore.get_setSlot hk, if_pos rfl]
    rw [ElementStore.refCount_of_get c h1, ElementStore.refCount_of_get c hk, if_pos rfl]
    unfold FoliaElement.push
    simp [List.count_append]
  · rw [if_neg h, Nat.add_zero]
    exact ElementStore.refCount_congr c (by rw [ElementStore.get_setSlot hk, if_neg h])

theorem ElementStore.refCount_setSlot_erase {s : ElementStore} {k : ℕ} {e0 : FoliaElement}
    (hk : s.get k = some e0) (c r : ℕ) :
    (s.setSlot k { e0 with data := e0.data.erase (DataType.Element c) }).refCount r c
      = s.refCount r c - (if k = r then 1 else 0) := by
  by_cases h : k = r
  · subst h
    have h1 : (s.setSlot k { e0 with data := e0.data.erase (DataType.Element c) }).get k
        = some { e0 with data := e0.data.erase (DataType.Element c) } := by
      rw [ElementStore.get_setSlot hk, if_pos rfl]
    rw [ElementStore.refCount_of_get c h1, ElementStore.refCount_of_get c hk, if_pos rfl]
    simp [List.count_erase_self]
  · rw [if_neg h, Nat.sub_zero]
    exact ElementStore.refCount_congr c (by rw [ElementStore.get_setSlot hk, if_neg h])

/-! ### The shared removal step of attach and detach -/

theorem FoliaElement.index_remove_eq_erase (e : FoliaElement) (x : DataType) :
    (match e.index x with | some i => (e.remove i).2 | none => e)
      = { e with data := e.data.erase x } := by
  unfold FoliaElement.index FoliaElement.remove
  cases hfi : e.data.findIdx? (fun child => child == x) with
  | none =>
    have hx : e.data.erase x = e.data := by
      rw [erase_eq_eraseP_beq]
      apply List.eraseP_of_forall_not
      intro a ha
      simp [List.findIdx?_eq_none_iff.mp hfi a ha]
    simp [hx]
  | some i =>
    have hlt : i < e.data.length := findIdx?_lt_length hfi
    have heq := eraseIdx_findIdx?_eq_eraseP (fun child => child == x) e.data
    rw [hfi] at heq
    have heq2 : e.data.eraseIdx i = List.eraseP (fun child => child == x) e.data := heq
    simp only [if_neg (Nat.not_le.mpr hlt)]
    rw [heq2, ← erase_eq_eraseP_beq]

theorem ElementStore.removeFromParent_none {s : ElementStore} {op : ℕ} (c : ℕ)
    (hop : s.get op = none) : s.removeFromParent op c = s := by
  unfold ElementStore.removeFromParent
  rw [ElementStore.get_mut_eq_get, hop]

theorem ElementStore.removeFromParent_some {s : ElementStore} {op : ℕ} {ope : FoliaElement}
    (c : ℕ) (hop : s.get op = some ope) :
    s.removeFromParent op c
      = s.setSlot op { ope with data := ope.data.erase (DataType.Element c) } := by
  unfold ElementStore.removeFromParent
  rw [ElementStore.get_mut_eq_get, hop]
  show (match ope.index (DataType.Element c) with
        | none => s
        | some i => s.setSlot op (ope.remove i).2)
      = s.setSlot op { ope with data := ope.data.erase (DataType.Element c) }
  have heq := FoliaElement.index_remove_eq_erase ope (DataType.Element c)
  cases hidx : ope.index (DataType.Element c) with
  | none =>
    rw [hidx] at heq
    have heq2 : ope = { ope with data := ope.data.erase (DataType.Element c) } := heq
    show s = s.setSlot op { ope with data := ope.data.erase (DataType.Element c) }
    rw [← heq2]
    exact (ElementStore.setSlot_self hop).symm
  | some i =>
    rw [hidx] at heq
    have heq2 : (ope.remove i).2
        = { ope with data := ope.data.erase (DataType.Element c) } := heq
    show s.setSlot op (ope.remove i).2
        = s.setSlot op { ope with data := ope.data.erase (DataType.Element c) }
    rw [heq2]

theorem ElementStore.refCount_removeFromParent (s : ElementStore) (op c r : ℕ) :
    (s.removeFromParent op c).refCount r c = s.refCount r c - (if op = r then 1 else 0) := by
  cases hop : s.get op with
  | none =>
    rw [ElementStore.removeFromParent_none c hop]
    by_cases h : op = r
    · subst h
      rw [ElementStore.refCount_of_get_none c hop]
      simp
    · simp [h]
  | some ope =>
    rw [ElementStore.removeFromParent_some c hop]
    exact ElementStore.refCount_setSlot_erase hop c r

theorem ElementStore.get_removeFromParent_isSome (s : ElementStore) (op c j : ℕ) :
    ((s.removeFromParent op c).get j).isSome = (s.get j).isSome := by
  cases hop : s.get op with
  | none => rw [ElementStore.removeFromParent_none c hop]
  | some ope =>
    rw [ElementStore.removeFromParent_some c hop]
    exact ElementStore.get_setSlot_isSome hop _ j

theorem ElementStore.get_removeFromParent_parent (s : ElementStore) (op c j : ℕ) :
    ((s.removeFromParent op c).get j).map FoliaElement.parent
      = (s.get j).map FoliaElement.parent := by
  cases hop : s.get op with
  | none => rw [ElementStore.removeFromParent_none c hop]
  | some ope =>
    rw [ElementStore.removeFromParent_some c hop]
    rw [ElementStore.get_setSlot hop]
    by_cases h : op = j
    · subst h
      rw [if_pos rfl, hop]
      rfl
    · rw [if_neg h]

theorem ElementStore.removeFromParent_index (s : ElementStore) (op c : ℕ) :
    (s.removeFromParent op c).index = s.index := by
  cases hop : s.get op with
  | none => rw [ElementStore.removeFromParent_none c hop]
  | some ope => rw [ElementStore.removeFromParent_some c hop]; rfl


/-! ### Branch equations for attach and detach -/

theorem ElementStore.attach_no_parent {s : ElementStore} {p : ℕ} (c : ℕ)
    (hp : s.get p = none) : s.attach p c = (s, false) := by
  unfold ElementStore.attach
  rw [hp]

theorem ElementStore.attach_no_child {s : ElementStore} {p c : ℕ} {pe : FoliaElement}
    (hp : s.get p = some pe) (hc : s.get c = none) : s.attach p c = (s, false) := by
  unfold ElementStore.attach
  rw [hp, ElementStore.get_mut_eq_get, hc]

theorem ElementStore.detach_no_child {s : ElementStore} {c : ℕ}
    (hc : s.get c = none) : s.detach c = (s, false) := by
  unfold ElementStore.detach
  rw [ElementStore.get_mut_eq_get, hc]

theorem ElementStore.attach_parent_exists {s : ElementStore} {p c : ℕ}
    {pe ce : FoliaElement} (hp : s.get p = some pe) (hc : s.get c = some ce) :
    ∃ pe1, (s.setSlot c (ce.set_parent (some p))).get p = some pe1 := by
  rw [ElementStore.get_setSlot hc]
  by_cases h : c = p
  · rw [if_pos h]
    exact ⟨_, rfl⟩
  · rw [if_neg h]
    exact ⟨pe, hp⟩

theorem ElementStore.attach_some_eq {s : ElementStore} {p c : ℕ}
    {pe ce pe1 : FoliaElement} (hp : s.get p = some pe) (hc : s.get c = some ce)
    (hpe1 : (s.setSlot c (ce.set_parent (some p))).get p = some pe1) :
    s.attach p c
      = ((match ce.parent with
          | some op => ((s.setSlot c (ce.set_parent (some p))).setSlot p
              (pe1.push (DataType.Element c))).removeFromParent op c
          | none => (s.setSlot c (ce.set_parent (some p))).setSlot p
              (pe1.push (DataType.Element c))), true) := by
  unfold ElementStore.attach
  rw [hp, ElementStore.get_mut_eq_get, hc]
  simp only [ElementStore.get_mut_eq_get, FoliaElement.get_parent, hpe1]

theorem ElementStore.detach_some_eq {s : ElementStore} {c : ℕ} {ce : FoliaElement}
    (hc : s.get c = some ce) :
    s.detach c
      = ((match ce.parent with
          | some op => (s.setSlot c (ce.set_parent none)).removeFromParent op c
          | none => s.setSlot c (ce.set_parent none)), true) := by
  unfold ElementStore.detach
  rw [ElementStore.get_mut_eq_get, hc]
  simp only [FoliaElement.get_parent]


/-! ### Effect of a successful attach -/

theorem ElementStore.attach_effect {s : ElementStore} {p c : ℕ} {pe ce : FoliaElement}
    (hp : s.get p = some pe) (hc : s.get c = some ce) :
    (s.attach p c).2 = true ∧
    (∃ ce2, (s.attach p c).1.get c = some ce2 ∧ ce2.parent = some p) ∧
    (∀ j, ((s.attach p c).1.get j).isSome = (s.get j).isSome) ∧
    (∀ r, (s.attach p c).1.refCount r c
        = (s.refCount r c + (if p = r then 1 else 0)) - (if ce.parent = some r then 1 else 0)) := by
  obtain ⟨pe1, hpe1⟩ := ElementStore.attach_parent_exists hp hc
  rw [ElementStore.attach_some_eq hp hc hpe1]
  have hs1c : (s.setSlot c (ce.set_parent (some p))).get c = some (ce.set_parent (some p)) := by
    rw [ElementStore.get_setSlot hc, if_pos rfl]
  -- the store after the push step
  have hs2get : ∀ j, ((s.setSlot c (ce.set_parent (some p))).setSlot p
        (pe1.push (DataType.Element c))).get j
      = if p = j then some (pe1.push (DataType.Element c))
        else (s.setSlot c (ce.set_parent (some p))).get j :=
    fun j => ElementStore.get_setSlot hpe1 _ j
  have hs2c : ∃ ce2, ((s.setSlot c (ce.set_parent (some p))).setSlot p
        (pe1.push (DataType.Element c))).get c = some ce2 ∧ ce2.parent = some p := by
    rw [hs2get c]
    by_cases h : p = c
    · refine ⟨pe1.push (DataType.Element c), by rw [if_pos h], ?_⟩
      subst h
      rw [hs1c] at hpe1
      cases hpe1
      rfl
    · exact ⟨ce.set_parent (some p), by rw [if_neg h, hs1c], rfl⟩
  have hs2some : ∀ j, (((s.setSlot c (ce.set_parent (some p))).setSlot p
        (pe1.push (DataType.Element c))).get j).isSome = (s.get j).isSome := by
    intro j
    rw [ElementStore.get_setSlot_isSome hpe1, ElementStore.get_setSlot_isSome hc]
  have hs2count : ∀ r, ((s.setSlot c (ce.set_parent (some p))).setSlot p
        (pe1.push (DataType.Element c))).refCount r c
      = s.refCount r c + (if p = r then 1 else 0) := by
    intro r
    rw [ElementStore.refCount_setSlot_push hpe1,
      ElementStore.refCount_setSlot_congr hc (show (ce.set_parent (some p)).data = ce.data from rfl)]
  cases hpar : ce.parent with
  | none =>
    refine ⟨rfl, hs2c, hs2some, ?_⟩
    intro r
    rw [hs2count r]
    rfl
  | some op =>
    refine ⟨rfl, ?_, ?_, ?_⟩
    · obtain ⟨ce2, hce2, hce2p⟩ := hs2c
      have hmap := ElementStore.get_removeFromParent_parent
        ((s.setSlot c (ce.set_parent (some p))).setSlot p (pe1.push (DataType.Element c))) op c c
      rw [hce2] at hmap
      cases hget : (((s.setSlot c (ce.set_parent (some p))).setSlot p
          (pe1.push (DataType.Element c))).removeFromParent op c).get c with
      | none => rw [hget] at hmap; simp at hmap
      | some ce3 =>
        rw [hget] at hmap
        simp only [Option.map_some'] at hmap
        refine ⟨ce3, rfl, ?_⟩
        rw [show ce3.parent = ce2.parent from by injection hmap, hce2p]
    · intro j
      rw [ElementStore.get_removeFromParent_isSome, hs2some j]
    · intro r
      rw [ElementStore.refCount_removeFromParent, hs2count r]
      by_cases h : op = r
      · subst h
        rw [if_pos rfl, if_pos rfl]
      · rw [if_neg h, if_neg (by simp [h] : ¬(some op = some r))]

/-! ### Effect of a successful detach -/

theorem ElementStore.detach_effect {s : ElementStore} {c : ℕ} {ce : FoliaElement}
    (hc : s.get c = some ce) :
    (s.detach c).2 = true ∧
    (∃ ce2, (s.detach c).1.get c = some ce2 ∧ ce2.parent = none) ∧
    (∀ j, ((s.detach c).1.get j).isSome = (s.get j).isSome) ∧
    (∀ r, (s.detach c).1.refCount r c
        = s.refCount r c - (if ce.parent = some r then 1 else 0)) := by
  rw [ElementStore.detach_some_eq hc]
  have hs1c : (s.setSlot c (ce.set_parent none)).get c = some (ce.set_parent none) := by
    rw [ElementStore.get_setSlot hc, if_pos rfl]
  have hs1some : ∀ j, ((s.setSlot c (ce.set_parent none)).get j).isSome = (s.get j).isSome :=
    fun j => ElementStore.get_setSlot_isSome hc _ j
  have hs1count : ∀ r, (s.setSlot c (ce.set_parent none)).refCount r c = s.refCount r c :=
    fun r => ElementStore.refCount_setSlot_congr hc
      (show (ce.set_parent none).data = ce.data from rfl) r c
  cases hpar : ce.parent with
  | none =>
    refine ⟨rfl, ⟨ce.set_parent none, hs1c, rfl⟩, hs1some, ?_⟩
    intro r
    rw [hs1count r]
    rfl
  | some op =>
    refine ⟨rfl, ?_, ?_, ?_⟩
    · have hmap := ElementStore.get_removeFromParent_parent
        (s.setSlot c (ce.set_parent none)) op c c
      rw [hs1c] at hmap
      cases hget : ((s.setSlot c (ce.set_parent none)).removeFromParent op c).get c with
      | none => rw [hget] at hmap; simp at hmap
      | some ce3 =>
        rw [hget] at hmap
        simp only [Option.map_some'] at hmap
        refine ⟨ce3, rfl, ?_⟩
        injection hmap
    · intro j
      rw [ElementStore.get_removeFromParent_isSome, hs1some j]
    · intro r
      rw [ElementStore.refCount_removeFromParent, hs1count r]
      by_cases h : op = r
      · subst h
        rw [if_pos rfl, if_pos rfl]
      · rw [if_neg h, if_neg (by simp [h] : ¬(some op = some r))]


/-! ### Unconditional preservation lemmas -/

theorem ElementStore.setSlot_index (s : ElementStore) (k : ℕ) (e : FoliaElement) :
    (s.setSlot k e).index = s.index := rfl

theorem ElementStore.attach_index (s : ElementStore) (p c : ℕ) :
    (s.attach p c).1.index = s.index := by
  cases hp : s.get p with
  | none => rw [ElementStore.attach_no_parent c hp]
  | some pe =>
    cases hc : s.get c with
    | none => rw [ElementStore.attach_no_child hp hc]
    | some ce =>
      obtain ⟨pe1, hpe1⟩ := ElementStore.attach_parent_exists hp hc
      rw [ElementStore.attach_some_eq hp hc hpe1]
      cases hpar : ce.parent with
      | none => rfl
      | some op => exact ElementStore.removeFromParent_index _ op c

theorem ElementStore.attach_isSome (s : ElementStore) (p c j : ℕ) :
    ((s.attach p c).1.get j).isSome = (s.get j).isSome := by
  cases hp : s.get p with
  | none => rw [ElementStore.attach_no_parent c hp]
  | some pe =>
    cases hc : s.get c with
    | none => rw [ElementStore.attach_no_child hp hc]
    | some ce =>
      obtain ⟨pe1, hpe1⟩ := ElementStore.attach_parent_exists hp hc
      rw [ElementStore.attach_some_eq hp hc hpe1]
      cases hpar : ce.parent with
      | none =>
        show (((s.setSlot c (ce.set_parent (some p))).setSlot p
          (pe1.push (DataType.Element c))).get j).isSome = _
        rw [ElementStore.get_setSlot_isSome hpe1, ElementStore.get_setSlot_isSome hc]
      | some op =>
        show ((((s.setSlot c (ce.set_parent (some p))).setSlot p
          (pe1.push (DataType.Element c))).removeFromParent op c).get j).isSome = _
        rw [ElementStore.get_removeFromParent_isSome,
          ElementStore.get_setSlot_isSome hpe1, ElementStore.get_setSlot_isSome hc]

theorem ElementStore.detach_index (s : ElementStore) (c : ℕ) :
    (s.detach c).1.index = s.index := by
  cases hc : s.get c with
  | none => rw [ElementStore.detach_no_child hc]
  | some ce =>
    rw [ElementStore.detach_some_eq hc]
    cases hpar : ce.parent with
    | none => rfl
    | some op => exact ElementStore.removeFromParent_index _ op c

theorem ElementStore.detach_isSome (s : ElementStore) (c j : ℕ) :
    ((s.detach c).1.get j).isSome = (s.get j).isSome := by
  cases hc : s.get c with
  | none => rw [ElementStore.detach_no_child hc]
  | some ce =>
    rw [ElementStore.detach_some_eq hc]
    cases hpar : ce.parent with
    | none =>
      show ((s.setSlot c (ce.set_parent none)).get j).isSome = _
      rw [ElementStore.get_setSlot_isSome hc]
    | some op =>
      show (((s.setSlot c (ce.set_parent none)).removeFromParent op c).get j).isSome = _
      rw [ElementStore.get_removeFromParent_isSome, ElementStore.get_setSlot_isSome hc]


/-! ### Claims about attach and detach -/

/-- Claim C1 (confirmed): reparent atomicity.  In a store whose `Element c`
reference counts agree with the parent field of `c` (exactly one reference,
held by the recorded parent slot, or none if `c` is unattached), with `p`, `q`
and `c` present and `p ≠ q`, after `attach(p, c)` followed by `attach(q, c)`
the parent field of `c` equals `q`, the content of `q` holds exactly one
`Element c` entry, and the content of `p` holds none. -/
theorem ElementStore.attach_attach_reparent (s : ElementStore) (p q c : ℕ)
    (pe qe ce : FoliaElement)
    (hp : s.get p = some pe) (hq : s.get q = some qe) (hc : s.get c = some ce)
    (hpq : p ≠ q)
    (hinv : ∀ r, s.refCount r c = if ce.parent = some r then 1 else 0) :
    ∃ ce2, ((s.attach p c).1.attach q c).1.get c = some ce2 ∧ ce2.parent = some q
      ∧ ((s.attach p c).1.attach q c).1.refCount q c = 1
      ∧ ((s.attach p c).1.attach q c).1.refCount p c = 0 := by
  obtain ⟨_, ⟨ce1, hce1, hce1p⟩, hsome1, hcount1⟩ := ElementStore.attach_effect hp hc
  have hinv1 : ∀ r, (s.attach p c).1.refCount r c = if ce1.parent = some r then 1 else 0 := by
    intro r
    rw [hcount1 r, hinv r, hce1p]
    by_cases hr : p = r
    · subst hr
      by_cases hcp : ce.parent = some p <;> simp [hcp]
    · have hr2 : ¬(some p = some r) := by simp [hr]
      by_cases hcp : ce.parent = some r <;> simp [hcp, hr, hr2]
  have hq1s : ((s.attach p c).1.get q).isSome = true := by
    rw [hsome1 q, hq]
    rfl
  obtain ⟨qe1, hq1⟩ := Option.isSome_iff_exists.mp hq1s
  obtain ⟨_, ⟨ce2, hce2, hce2p⟩, hsome2, hcount2⟩ := ElementStore.attach_effect hq1 hce1
  refine ⟨ce2, hce2, hce2p, ?_, ?_⟩
  · rw [hcount2 q, hinv1 q, hce1p]
    simp [hpq]
  · rw [hcount2 p, hinv1 p, hce1p]
    simp [hpq, Ne.symm hpq]

/-- Witness for C1 at a concrete store: slots 0, 1 hold sentences, slot 2 an
unattached word; after attaching 2 under 0 and then under 1, the word has
parent 1, slot 1 references it once and slot 0 not at all. -/
theorem ElementStore.attach_attach_reparent_witness :
    ∃ ce2, ((sampleStore.attach 0 2).1.attach 1 2).1.get 2 = some ce2
      ∧ ce2.parent = some 1
      ∧ ((sampleStore.attach 0 2).1.attach 1 2).1.refCount 1 2 = 1
      ∧ ((sampleStore.attach 0 2).1.attach 1 2).1.refCount 0 2 = 0 :=
  ElementStore.attach_attach_reparent sampleStore 0 1 2
    (FoliaElement.new ElementType.Sentence) (FoliaElement.new ElementType.Sentence)
    (FoliaElement.new ElementType.Word) rfl rfl rfl (by decide)
    (fun r => by
      match r with
      | 0 => rfl
      | 1 => rfl
      | 2 => rfl
      | n + 3 => rfl)

/-- Claim C5 (confirmed): detach postcondition and idempotence.  In a store
whose `Element c` reference counts agree with the parent field of the present
node `c`, `detach(c)` succeeds, leaves `c` with no parent and no `Element c`
entry in any content, and a second `detach(c)` returns `true` and changes
nothing. -/
theorem ElementStore.detach_postcondition (s : ElementStore) (c : ℕ) (ce : FoliaElement)
    (hc : s.get c = some ce)
    (hinv : ∀ r, s.refCount r c = if ce.parent = some r then 1 else 0) :
    (s.detach c).2 = true ∧
    (∃ ce2, (s.detach c).1.get c = some ce2 ∧ ce2.parent = none) ∧
    (∀ r e, (s.detach c).1.get r = some e → DataType.Element c ∉ e.data) ∧
    (s.detach c).1.detach c = ((s.detach c).1, true) := by
  obtain ⟨hb, ⟨ce2, hce2, hce2p⟩, hsome, hcount⟩ := ElementStore.detach_effect hc
  refine ⟨hb, ⟨ce2, hce2, hce2p⟩, ?_, ?_⟩
  · intro r e hre
    have h0 : (s.detach c).1.refCount r c = 0 := by
      rw [hcount r, hinv r]
      by_cases hcp : ce.parent = some r <;> simp [hcp]
    rw [ElementStore.refCount_of_get c hre] at h0
    exact List.count_eq_zero.mp h0
  · have hset : ce2.set_parent none = ce2 := by
      unfold FoliaElement.set_parent
      cases ce2 with
      | mk et ats d par =>
        have hpar : par = none := hce2p
        rw [hpar]
    rw [ElementStore.detach_some_eq hce2, hce2p, hset, ElementStore.setSlot_self hce2]

/-- Witness for C5 at a concrete store in which the word in slot 2 hangs under
the sentence in slot 0. -/
theorem ElementStore.detach_postcondition_witness :
    (sampleStoreAttached.detach 2).2 = true ∧
    (∃ ce2, (sampleStoreAttached.detach 2).1.get 2 = some ce2 ∧ ce2.parent = none) ∧
    (∀ r e, (sampleStoreAttached.detach 2).1.get r = some e → DataType.Element 2 ∉ e.data) ∧
    (sampleStoreAttached.detach 2).1.detach 2 = ((sampleStoreAttached.detach 2).1, true) :=
  ElementStore.detach_postcondition sampleStoreAttached 2
    { elementtype := ElementType.Word, attribs := [], data := [], parent := some 0 }
    rfl
    (fun r => by
      match r with
      | 0 => rfl
      | 1 => rfl
      | 2 => rfl
      | n + 3 => rfl)

/-- Claim C6 (confirmed): structural failure without partial mutation.
`attach` with an unresolvable parent key, `attach` with a resolvable parent but
an unresolvable child key, and `detach` with an unresolvable child key all
return `false` and leave the store exactly as it was. -/
theorem ElementStore.attach_detach_missing_key (s : ElementStore) (p c : ℕ) :
    (s.get p = none → s.attach p c = (s, false)) ∧
    (∀ pe, s.get p = some pe → s.get c = none → s.attach p c = (s, false)) ∧
    (s.get c = none → s.detach c = (s, false)) :=
  ⟨fun hp => ElementStore.attach_no_parent c hp,
   fun _pe hp hc => ElementStore.attach_no_child hp hc,
   fun hc => ElementStore.detach_no_child hc⟩

/-- Witness for C6: on the three-slot sample store, key 7 resolves to nothing;
failing attach and detach calls leave the store untouched. -/
theorem ElementStore.attach_detach_missing_key_witness :
    (sampleStore.attach 7 0 = (sampleStore, false)) ∧
    (sampleStore.attach 0 7 = (sampleStore, false)) ∧
    (sampleStore.detach 7 = (sampleStore, false)) :=
  ⟨(ElementStore.attach_detach_missing_key sampleStore 7 0).1 rfl,
   (ElementStore.attach_detach_missing_key sampleStore 0 7).2.1
     (FoliaElement.new ElementType.Sentence) rfl rfl,
   (ElementStore.attach_detach_missing_key sampleStore 0 7).2.2 rfl⟩


/-! ### Lemmas about add -/

theorem ElementStore.add_eq (s : ElementStore) (item : FoliaElement) :
    s.add item = Except.ok (s.add_core item) := rfl

theorem ElementStore.get_key_lookup {s : ElementStore} {item : FoliaElement} {id : String}
    (h1 : item.maybe_id = some id) : s.get_key item = s.index.lookup id := by
  unfold ElementStore.get_key
  rw [h1]

theorem ElementStore.add_core_of_get_key {s : ElementStore} {item : FoliaElement} {key : ℕ}
    (hk : s.get_key item = some key) : s.add_core item = (key, s) := by
  unfold ElementStore.add_core
  rw [hk]

theorem ElementStore.add_core_fresh {s : ElementStore} {item : FoliaElement} {id : String}
    (h1 : item.maybe_id = some id) (hk : s.get_key item = none) :
    s.add_core item = (s.elements.length,
      { elements := s.elements ++ [some item],
        index := s.index ++ [(id, s.elements.length)] }) := by
  unfold ElementStore.add_core
  rw [hk, h1]

theorem ElementStore.add_core_fresh_noid {s : ElementStore} {item : FoliaElement}
    (h1 : item.maybe_id = none) (hk : s.get_key item = none) :
    s.add_core item = (s.elements.length,
      { elements := s.elements ++ [some item], index := s.index }) := by
  unfold ElementStore.add_core
  rw [hk, h1]

theorem ElementStore.get_push_elements (s0 : ElementStore) (item : FoliaElement)
    (idx : List (String × ℕ)) (j : ℕ) :
    (ElementStore.mk (s0.elements ++ [some item]) idx).get j
      = if j = s0.elements.length then some item else s0.get j := by
  unfold ElementStore.get
  simp only [List.get?_eq_getElem?]
  by_cases hj : j = s0.elements.length
  · subst hj
    rw [if_pos rfl, List.getElem?_concat_length]
  · rw [if_neg hj]
    by_cases hlt : j < s0.elements.length
    · rw [List.getElem?_append_left hlt]
    · have hge : s0.elements.length ≤ j := Nat.not_lt.mp hlt
      rw [List.getElem?_append_right hge]
      have h1 : ([some item] : List (Option FoliaElement)).length ≤ j - s0.elements.length := by
        simp only [List.length_singleton]
        omega
      rw [List.getElem?_eq_none h1, List.getElem?_eq_none hge]

/-- Claim C2 (confirmed): idempotent insertion by identity.  If the string
identity carried by an item is already registered in the index, `add` returns
the existing key and the store unchanged; hence adding two items with the same
identity yields the same key both times and the second `add` appends no slot. -/
theorem ElementStore.add_idempotent_by_identity :
    (∀ (s : ElementStore) (item : FoliaElement) (id : String) (key : ℕ),
       item.maybe_id = some id → s.id_to_key id = some key →
       s.add item = Except.ok (key, s)) ∧
    (∀ (s s1 : ElementStore) (item1 item2 : FoliaElement) (id : String) (key1 : ℕ),
       item1.maybe_id = some id → item2.maybe_id = some id →
       s.add item1 = Except.ok (key1, s1) →
       s1.add item2 = Except.ok (key1, s1)) := by
  constructor
  · intro s item id key h1 h2
    rw [ElementStore.add_eq,
      ElementStore.add_core_of_get_key (by rw [ElementStore.get_key_lookup h1]; exact h2)]
  · intro s s1 item1 item2 id key1 h1 h2 hadd
    rw [ElementStore.add_eq] at hadd
    injection hadd with hcore
    rw [ElementStore.add_eq]
    cases hk : s.get_key item1 with
    | some k =>
      rw [ElementStore.add_core_of_get_key hk] at hcore
      injection hcore with hkey hs
      subst hkey
      subst hs
      have hlook : s.index.lookup id = some k := by
        rw [← ElementStore.get_key_lookup h1]
        exact hk
      rw [ElementStore.add_core_of_get_key (by rw [ElementStore.get_key_lookup h2]; exact hlook)]
    | none =>
      have hlook : s.index.lookup id = none := by
        rw [← ElementStore.get_key_lookup h1]
        exact hk
      rw [ElementStore.add_core_fresh h1 hk] at hcore
      injection hcore with hkey hs
      subst hkey
      subst hs
      have hk2 : s.index.lookup id = none →
          (List.lookup id (s.index ++ [(id, s.elements.length)])) = some s.elements.length := by
        intro hnone
        rw [lookup_append, hnone]
        simp [List.lookup_cons]
      rw [ElementStore.add_core_of_get_key
        (by rw [ElementStore.get_key_lookup h2]; exact hk2 hlook)]

/-- Witness for C2: adding a second node with identity "x" to the store that
already holds one returns key 0 and leaves the store unchanged. -/
theorem ElementStore.add_idempotent_by_identity_witness :
    sampleStoreX.add sampleWordY = Except.ok (0, sampleStoreX) :=
  ElementStore.add_idempotent_by_identity.2 ElementStore.empty sampleStoreX
    sampleWordX sampleWordY "x" 0 rfl rfl rfl

/-- Claim C9 (confirmed): total, crash-free slot lookup: `get` yields `none`
exactly when the key is outside the current length of the collection or the
addressed slot is cleared, and `get_mut` behaves identically. -/
theorem ElementStore.get_total (s : ElementStore) (key : ℕ) :
    (s.get key = none ↔ s.elements.length ≤ key ∨ s.elements.get? key = some none) ∧
    s.get_mut key = s.get key := by
  refine ⟨?_, rfl⟩
  unfold ElementStore.get
  cases hk : s.elements.get? key with
  | none =>
    have hlen : s.elements.length ≤ key := by
      rw [List.get?_eq_getElem?] at hk
      exact List.getElem?_eq_none_iff.mp hk
    simp [hk, hlen]
  | some item =>
    cases item with
    | none => simp [hk]
    | some e =>
      have hlt : key < s.elements.length := (List.get?_eq_some.mp hk).1
      simp [hk, Nat.not_le.mpr hlt]

/-! ### Reachable stores keep the index and the collection consistent -/

theorem ElementStore.id_to_key_congr {s1 s2 : ElementStore} (h : s1.index = s2.index)
    (id : String) : s1.id_to_key id = s2.id_to_key id := by
  unfold ElementStore.id_to_key
  rw [h]

theorem ElementStore.reachable_invariant {s : ElementStore} (h : Reachable s) :
    ∀ id key, s.id_to_key id = some key → (s.get key).isSome := by
  induction h with
  | empty =>
    intro id key hk
    simp [ElementStore.id_to_key, ElementStore.empty, List.lookup_nil] at hk
  | add s0 item hr ih =>
    intro id key hk
    cases hgk : s0.get_key item with
    | some k =>
      have hs : (s0.add_core item).2 = s0 := by
        rw [ElementStore.add_core_of_get_key hgk]
      rw [hs] at hk ⊢
      exact ih id key hk
    | none =>
      cases hmi : item.maybe_id with
      | none =>
        have hs : (s0.add_core item).2
            = { elements := s0.elements ++ [some item], index := s0.index } := by
          rw [ElementStore.add_core_fresh_noid hmi hgk]
        rw [hs] at hk ⊢
        have hk0 : s0.id_to_key id = some key := hk
        have := ih id key hk0
        rw [ElementStore.get_push_elements]
        by_cases hj : key = s0.elements.length
        · rw [if_pos hj]
          rfl
        · rw [if_neg hj]
          exact this
      | some id0 =>
        have hs : (s0.add_core item).2
            = { elements := s0.elements ++ [some item],
                index := s0.index ++ [(id0, s0.elements.length)] } := by
          rw [ElementStore.add_core_fresh hmi hgk]
        rw [hs] at hk ⊢
        rw [ElementStore.get_push_elements]
        have hk2 : List.lookup id (s0.index ++ [(id0, s0.elements.length)]) = some key := hk
        rw [lookup_append] at hk2
        cases hold : List.lookup id s0.index with
        | some k2 =>
          rw [hold] at hk2
          simp only [Option.or_some] at hk2
          injection hk2 with hkk
          subst hkk
          have hsome := ih id k2 hold
          have hlt : k2 < s0.elements.length := by
            obtain ⟨e, he⟩ := Option.isSome_iff_exists.mp hsome
            exact ElementStore.get_lt_length he
          rw [if_neg (Nat.ne_of_lt hlt)]
          exact hsome
        | none =>
          rw [hold] at hk2
          simp only [Option.none_or] at hk2
          rw [List.lookup_cons] at hk2
          cases hid : id == id0 with
          | false => rw [hid] at hk2; simp [List.lookup_nil] at hk2
          | true =>
            rw [hid] at hk2
            injection hk2 with hkk
            subst hkk
            rw [if_pos rfl]
            rfl
  | attach s0 p c hr ih =>
    intro id key hk
    rw [ElementStore.id_to_key_congr (ElementStore.attach_index s0 p c) id] at hk
    rw [ElementStore.attach_isSome]
    exact ih id key hk
  | detach s0 c hr ih =>
    intro id key hk
    rw [ElementStore.id_to_key_congr (ElementStore.detach_index s0 c) id] at hk
    rw [ElementStore.detach_isSome]
    exact ih id key hk

/-- Claim C4 (confirmed): index/collection consistency.  In every store state
reachable through the store operations, an index entry always points at an
occupied slot; consequently `get_by_id` agrees with `get` composed with
`id_to_key` and never reaches the panicking `unwrap` (modelled by `some none`). -/
theorem ElementStore.reachable_index_consistent (s : ElementStore) (h : Reachable s)
    (id : String) (key : ℕ) (hk : s.id_to_key id = some key) :
    (∃ e, s.get key = some e) ∧ s.get_by_id id = some (s.get key) ∧
      s.get_by_id id ≠ some none := by
  have hs := ElementStore.reachable_invariant h id key hk
  obtain ⟨e, he⟩ := Option.isSome_iff_exists.mp hs
  refine ⟨⟨e, he⟩, ?_, ?_⟩
  · unfold ElementStore.get_by_id
    rw [hk]
    rfl
  · unfold ElementStore.get_by_id
    rw [hk]
    simp [he]

/-- Witness for C4 in the reachable store holding one identified node. -/
theorem ElementStore.reachable_index_consistent_witness :
    (∃ e, sampleStoreX.get 0 = some e) ∧
    sampleStoreX.get_by_id "x" = some (sampleStoreX.get 0) ∧
    sampleStoreX.get_by_id "x" ≠ some none :=
  ElementStore.reachable_index_consistent sampleStoreX
    (show Reachable sampleStoreX from
      Reachable.add ElementStore.empty sampleWordX Reachable.empty) "x" 0 rfl


/-! ### Attribute uniqueness (claim C3) -/

theorem FoliaElement.del_attrib_snd (e : FoliaElement) (t : AttribType) :
    (e.del_attrib t).2 = { e with attribs := e.attribs.eraseP (fun a => a.attribtype == t) } := by
  unfold FoliaElement.del_attrib
  have heq := eraseIdx_findIdx?_eq_eraseP (fun a => a.attribtype == t) e.attribs
  cases hfi : e.attribs.findIdx? (fun a => a.attribtype == t) with
  | none =>
    rw [hfi] at heq
    have heq2 : e.attribs = e.attribs.eraseP (fun a => a.attribtype == t) := heq
    exact congrArg (fun l => { e with attribs := l }) heq2
  | some i =>
    rw [hfi] at heq
    have heq2 : e.attribs.eraseIdx i
        = e.attribs.eraseP (fun a => a.attribtype == t) := heq
    show { e with attribs := e.attribs.eraseIdx i } = _
    rw [heq2]

theorem FoliaElement.set_attrib_attribs (e : FoliaElement) (a : Attribute) :
    (e.set_attrib a).attribs
      = e.attribs.eraseP (fun x => x.attribtype == a.attribtype) ++ [a] := by
  unfold FoliaElement.set_attrib
  rw [FoliaElement.del_attrib_snd]

/-- Claim C3 counterexample: `set_attribs` is a node-mutating operation that
does not preserve attribute uniqueness: replacing the attribute list of a fresh
word node wholesale by two `Id` attributes leaves the node with two attributes
of type `ID`. -/
theorem FoliaElement.set_attribs_breaks_uniqueness :
    ((FoliaElement.new ElementType.Word).attribs.countP
        (fun a => a.attribtype == AttribType.ID) = 0) ∧
    (((FoliaElement.new ElementType.Word).set_attribs
        [Attribute.Id "a", Attribute.Id "b"]).attribs.countP
        (fun a => a.attribtype == AttribType.ID) = 2) :=
  ⟨rfl, rfl⟩

/-- Claim C3 (amended): `set_attrib` enforces attribute uniqueness.  On a node
holding at most one attribute of type `t`, after `set_attrib a1` then
`set_attrib a2` with both attributes of type `t`, the node holds exactly one
attribute of type `t`, namely `a2` (which `attrib` returns). -/
theorem FoliaElement.set_attrib_unique (e : FoliaElement) (a1 a2 : Attribute) (t : AttribType)
    (ht1 : a1.attribtype = t) (ht2 : a2.attribtype = t)
    (huniq : e.attribs.countP (fun a => a.attribtype == t) ≤ 1) :
    ((e.set_attrib a1).set_attrib a2).attribs.countP (fun a => a.attribtype == t) = 1 ∧
    ((e.set_attrib a1).set_attrib a2).attrib t = some a2 := by
  have hpa1 : (a1.attribtype == t) = true := by simp [ht1]
  have hpa2 : (a2.attribtype == t) = true := by simp [ht2]
  have hc0 : (e.attribs.eraseP (fun a => a.attribtype == t)).countP
      (fun a => a.attribtype == t) = 0 := by
    have := countP_eraseP_self (fun a => a.attribtype == t) e.attribs
    omega
  have hnot : ∀ b ∈ e.attribs.eraseP (fun a => a.attribtype == t),
      ¬((fun a => a.attribtype == t) b = true) := List.countP_eq_zero.mp hc0
  have h1 : (e.set_attrib a1).attribs
      = e.attribs.eraseP (fun a => a.attribtype == t) ++ [a1] := by
    rw [FoliaElement.set_attrib_attribs, ht1]
  have h2 : ((e.set_attrib a1).set_attrib a2).attribs
      = e.attribs.eraseP (fun a => a.attribtype == t) ++ [a2] := by
    rw [FoliaElement.set_attrib_attribs, ht2, h1]
    rw [List.eraseP_append_right _ hnot]
    rw [List.eraseP_cons]
    simp [hpa1]
  constructor
  · rw [h2, List.countP_append, hc0, List.countP_cons]
    simp [hpa2]
  · unfold FoliaElement.attrib
    rw [h2, List.find?_append, List.find?_eq_none.mpr hnot, Option.none_or,
      List.find?_cons]
    simp [hpa2]

/-- Witness for the amended C3 at a fresh word node and two class attributes. -/
theorem FoliaElement.set_attrib_unique_witness :
    (((FoliaElement.new ElementType.Word).set_attrib (Attribute.Class "A")).set_attrib
        (Attribute.Class "B")).attribs.countP
      (fun a => a.attribtype == AttribType.CLASS) = 1 ∧
    (((FoliaElement.new ElementType.Word).set_attrib (Attribute.Class "A")).set_attrib
        (Attribute.Class "B")).attrib AttribType.CLASS = some (Attribute.Class "B") :=
  FoliaElement.set_attrib_unique (FoliaElement.new ElementType.Word)
    (Attribute.Class "A") (Attribute.Class "B") AttribType.CLASS rfl rfl (by decide)

/-- Claim C7 (confirmed): round trip of the type tables.  Resolving the wire
tag of every element kind through `from_str` yields that kind back, and the
annotation-type to primary-element-type mapping is total. -/
theorem elementtype_tables_roundtrip :
    (∀ k : ElementType, ElementType.from_str k.as_str = Except.ok k) ∧
    (∀ a : AnnotationType, ∃ k : ElementType, a.elementtype = k) := by
  constructor
  · intro k
    cases k <;> rfl
  · intro a
    exact ⟨a.elementtype, rfl⟩


/-! ### Parse errors and their messages (claim C8) -/

set_option maxHeartbeats 2000000 in
theorem ElementType.from_str_err {tag m : Str}
    (h : ElementType.from_str tag = Except.error (FoliaError.ParseError m)) :
    m = "Unknown tag has no associated element type: " ++ tag := by
  unfold ElementType.from_str at h
  split at h <;>
    first
      | exact Except.noConfusion h
      | (injection h with h1
         injection h1 with h2
         exact h2.symm)

theorem Attribute.parse_unknown_key (fromF64 : String → Option Float) (key v : String)
    (hk : key ∉ knownAttributeNames) :
    Attribute.parse fromF64 key (Except.ok v)
      = Except.error (FoliaError.ParseError ("Unknown attribute: \x27" ++ key ++ "\x27")) := by
  simp only [knownAttributeNames, List.mem_cons, List.not_mem_nil, or_false, not_or] at hk
  unfold Attribute.parse
  split <;> simp_all

theorem Attribute.parse_confidence_eq (fromF64 : String → Option Float) (v : String) :
    Attribute.parse fromF64 "confidence" (Except.ok v)
      = (match fromF64 v with
         | some f => Except.ok (Attribute.Confidence f)
         | none => Except.error
             (FoliaError.ParseError ("Invalid confidence value: \x27" ++ v ++ "\x27"))) := rfl

theorem Attribute.parse_space_eq (fromF64 : String → Option Float) (v : String) :
    Attribute.parse fromF64 "space" (Except.ok v)
      = (match v with
         | "yes" | "true" => Except.ok (Attribute.Space true)
         | "no" | "false" => Except.ok (Attribute.Space false)
         | _ => Except.error
             (FoliaError.ParseError ("Invalid space value: \x27" ++ v ++ "\x27"))) := rfl

theorem Attribute.parse_space_invalid (fromF64 : String → Option Float) (v : String)
    (hv : v ∉ (["yes", "true", "no", "false"] : List String)) :
    Attribute.parse fromF64 "space" (Except.ok v)
      = Except.error (FoliaError.ParseError ("Invalid space value: \x27" ++ v ++ "\x27")) := by
  simp only [List.mem_cons, List.not_mem_nil, or_false, not_or] at hv
  obtain ⟨h1, h2, h3, h4⟩ := hv
  rw [Attribute.parse_space_eq]
  split <;>
    first
      | rfl
      | exact absurd rfl h1
      | exact absurd rfl h2
      | exact absurd rfl h3
      | exact absurd rfl h4

/-- Claim C8 counterexample: when decoding the raw attribute value fails (for
example the raw value text `&bogus;`, on which unescaping fails in the reader),
the parse error carries a fixed message that does not contain the offending
literal. -/
theorem Attribute.parse_invalid_encoding_no_literal :
    Attribute.parse (fun _ => none) "class" (Except.error ())
      = Except.error (FoliaError.ParseError "Unable to parse attribute value (invalid utf-8?)") ∧
    ¬("&bogus;".data <:+: "Unable to parse attribute value (invalid utf-8?)".data) := by
  constructor
  · rfl
  · decide

/-- Claim C8 (amended): for decoded wire input the parse errors carry the
offending literal: an unrecognized element tag, an unknown attribute name, a
non-numeric confidence value and an invalid space value each fail with a Parse
error whose message contains the offending literal text (only the
encoding-failure error has a fixed message without it). -/
theorem Attribute.parse_errors_carry_literal :
    (∀ tag m : String,
       ElementType.from_str tag = Except.error (FoliaError.ParseError m) →
       tag.data <:+: m.data) ∧
    (∀ (fromF64 : String → Option Float) (key v : String), key ∉ knownAttributeNames →
       ∃ m, Attribute.parse fromF64 key (Except.ok v)
           = Except.error (FoliaError.ParseError m) ∧ key.data <:+: m.data) ∧
    (∀ (fromF64 : String → Option Float) (v : String), fromF64 v = none →
       ∃ m, Attribute.parse fromF64 "confidence" (Except.ok v)
           = Except.error (FoliaError.ParseError m) ∧ v.data <:+: m.data) ∧
    (∀ (fromF64 : String → Option Float) (v : String),
       v ∉ (["yes", "true", "no", "false"] : List String) →
       ∃ m, Attribute.parse fromF64 "space" (Except.ok v)
           = Except.error (FoliaError.ParseError m) ∧ v.data <:+: m.data) := by
  refine ⟨?_, ?_, ?_, ?_⟩
  · intro tag m h
    rw [ElementType.from_str_err h]
    exact ⟨"Unknown tag has no associated element type: ".data, [],
      by simp [String.data_append]⟩
  · intro fromF64 key v hk
    refine ⟨"Unknown attribute: \x27" ++ key ++ "\x27",
      Attribute.parse_unknown_key fromF64 key v hk,
      "Unknown attribute: \x27".data, "\x27".data, ?_⟩
    simp [String.data_append]
  · intro fromF64 v hf
    refine ⟨"Invalid confidence value: \x27" ++ v ++ "\x27", ?_,
      "Invalid confidence value: \x27".data, "\x27".data, by simp [String.data_append]⟩
    rw [Attribute.parse_confidence_eq, hf]
  · intro fromF64 v hv
    exact ⟨"Invalid space value: \x27" ++ v ++ "\x27",
      Attribute.parse_space_invalid fromF64 v hv,
      "Invalid space value: \x27".data, "\x27".data, by simp [String.data_append]⟩

/-- Witness for the amended C8 at the literal boundary inputs of the spec:
tag `bogus`, attribute name `foo`, `confidence="abc"` and `space="maybe"`. -/
theorem Attribute.parse_errors_carry_literal_witness :
    ("bogus".data <:+: "Unknown tag has no associated element type: bogus".data) ∧
    (∃ m, Attribute.parse (fun _ => none) "foo" (Except.ok "v")
        = Except.error (FoliaError.ParseError m) ∧ "foo".data <:+: m.data) ∧
    (∃ m, Attribute.parse (fun _ => none) "confidence" (Except.ok "abc")
        = Except.error (FoliaError.ParseError m) ∧ "abc".data <:+: m.data) ∧
    (∃ m, Attribute.parse (fun _ => none) "space" (Except.ok "maybe")
        = Except.error (FoliaError.ParseError m) ∧ "maybe".data <:+: m.data) :=
  ⟨Attribute.parse_errors_carry_literal.1 "bogus"
      "Unknown tag has no associated element type: bogus" rfl,
   Attribute.parse_errors_carry_literal.2.1 (fun _ => none) "foo" "v" (by decide),
   Attribute.parse_errors_carry_literal.2.2.1 (fun _ => none) "abc" rfl,
   Attribute.parse_errors_carry_literal.2.2.2 (fun _ => none) "maybe" (by decide)⟩


/-! ### add_to with an unresolvable parent (claim C10) -/

/-- Claim C10 counterexample: on the empty store, key 0 resolves to nothing,
yet `add_to(0, word)` inserts the word at slot 0 and then successfully attaches
it to itself, because `add_to` adds before attaching: the inserted node ends
with parent `some 0` and its own content referencing it — not with parent
`None` and no references, as the claim states for every unresolvable parent
key. -/
theorem ElementStore.add_to_self_attach :
    ElementStore.empty.get 0 = none ∧
    (ElementStore.empty.add_to 0 (FoliaElement.new ElementType.Word)).1 = 0 ∧
    (ElementStore.empty.add_to 0 (FoliaElement.new ElementType.Word)).2.get 0
      = some { elementtype := ElementType.Word, attribs := [],
               data := [DataType.Element 0], parent := some 0 } :=
  ⟨rfl, rfl, rfl⟩

/-- Claim C10 (amended): `add_to` with an unresolvable parent still inserts the
child and returns its fresh key, discarding the failed attach — provided the
insertion is genuinely fresh: the child identity is not already indexed (else
`add` returns the existing, possibly attached node), the parent key also fails
to resolve after the insertion (else the fresh node itself becomes the parent),
the child carries no parent field, and nothing references the fresh key.  Then
the inserted node sits at the fresh key with parent `None`, referenced by no
content. -/
theorem ElementStore.add_to_missing_parent (s : ElementStore) (p : ℕ) (child : FoliaElement)
    (hfresh : s.get_key child = none)
    (hpar : child.parent = none)
    (hp : s.get p = none)
    (hpk : p ≠ s.elements.length)
    (hnoref : ∀ r e, s.get r = some e → DataType.Element s.elements.length ∉ e.data)
    (hcd : DataType.Element s.elements.length ∉ child.data) :
    (s.add_to p child).1 = s.elements.length ∧
    (s.add_to p child).2.get s.elements.length = some child ∧
    child.parent = none ∧
    (∀ r e, (s.add_to p child).2.get r = some e →
       DataType.Element s.elements.length ∉ e.data) := by
  have hcore : (s.add_core child).1 = s.elements.length ∧
      ∀ j, (s.add_core child).2.get j
        = if j = s.elements.length then some child else s.get j := by
    cases hmi : child.maybe_id with
    | some id =>
      rw [ElementStore.add_core_fresh hmi hfresh]
      exact ⟨rfl, fun j => ElementStore.get_push_elements s child _ j⟩
    | none =>
      rw [ElementStore.add_core_fresh_noid hmi hfresh]
      exact ⟨rfl, fun j => ElementStore.get_push_elements s child _ j⟩
  obtain ⟨hkey, hget⟩ := hcore
  have hmidp : (s.add_core child).2.get p = none := by
    rw [hget p, if_neg hpk]
    exact hp
  have hattach : (s.add_core child).2.attach p (s.add_core child).1
      = ((s.add_core child).2, false) :=
    ElementStore.attach_no_parent (s.add_core child).1 hmidp
  have hunfold : s.add_to p child
      = ((s.add_core child).1, ((s.add_core child).2.attach p (s.add_core child).1).1) := rfl
  rw [hunfold, hattach]
  refine ⟨hkey, ?_, hpar, ?_⟩
  · rw [hget s.elements.length, if_pos rfl]
  · intro r e hre
    rw [hget r] at hre
    by_cases hr : r = s.elements.length
    · rw [if_pos hr] at hre
      injection hre with he
      subst he
      exact hcd
    · rw [if_neg hr] at hre
      exact hnoref r e hre

/-- Witness for the amended C10: adding a word under the unresolvable key 5 of
the three-slot sample store stores it at the fresh key 3, parentless and
unreferenced. -/
theorem ElementStore.add_to_missing_parent_witness :
    (sampleStoreAttached.add_to 5 (FoliaElement.new ElementType.Word)).1 = 3 ∧
    (sampleStoreAttached.add_to 5 (FoliaElement.new ElementType.Word)).2.get 3
      = some (FoliaElement.new ElementType.Word) ∧
    (FoliaElement.new ElementType.Word).parent = none ∧
    (∀ r e, (sampleStoreAttached.add_to 5 (FoliaElement.new ElementType.Word)).2.get r
        = some e → DataType.Element 3 ∉ e.data) :=
  ElementStore.add_to_missing_parent sampleStoreAttached 5 (FoliaElement.new ElementType.Word)
    rfl rfl rfl (by decide)
    (fun r e h => by
      match r with
      | 0 => injection h with he; subst he; decide
      | 1 => injection h with he; subst he; decide
      | 2 => injection h with he; subst he; decide
      | n + 3 => exact Option.noConfusion h)
    (by decide)

end Folia
